import Mathlib

/-!
Shallow embedding of the poly2tri-c half-edge kernel (the `p2tr_edge_*`
functions of the refine module) and of the `read_points_file` input loop of
the command-line tool, together with theorems checking the specification's
claims against this code.

The object graph of the C code (points, half-edges, triangles linked by
pointers) is embedded as a state holding partial maps from numeric
identifiers to records; a `NULL` pointer is `none`.  `double` values are
modelled by real numbers and the C library `atan2` by the argument of a
complex number.  Functions of the repository that are not part of the
visible sources (point, triangle and mesh helpers) are modelled from the
specification and marked as such in their doc comments.
-/

namespace Poly2triC

/-- C struct `P2trVector2`: a 2D vector of doubles, modelled over ℝ. -/
structure P2trVector2 where
  x : ℝ
  y : ℝ

/-- C struct `P2trCircle`: a center point and a radius. -/
structure P2trCircle where
  center : P2trVector2
  radius : ℝ

/-- Identifier of a half-edge record (stands for a `P2trEdge*`). -/
abbrev EdgeId := Nat

/-- Identifier of a point record (stands for a `P2trPoint*`). -/
abbrev PointId := Nat

/-- Identifier of a triangle record (stands for a `P2trTriangle*`). -/
abbrev TriId := Nat

/-- Identifier of a mesh (stands for a `P2trMesh*`). -/
abbrev MeshId := Nat

/-- C struct `P2trEdge`.  The field `endP` is the C field `end` (a Lean
keyword); `none` models a `NULL` end pointer, i.e. a removed edge.  The
reference count is modelled over ℤ so that the C comparison
`--self->refcount == 0` keeps its meaning on a decrement from zero. -/
structure P2trEdge where
  angle : ℝ
  constrained : Bool
  delaunay : Bool
  endP : Option PointId
  mirror : EdgeId
  refcount : ℤ
  tri : Option TriId

/-- Modelled from the spec: `P2trPoint` (its header is not among the visible
sources) — coordinates, the unordered collection of outgoing half-edges
incident to the point, a reference count, and a back-reference to the owning
mesh (§3 of the spec). -/
structure P2trPoint where
  c : P2trVector2
  outEdges : List EdgeId
  refcount : ℤ
  mesh : Option MeshId

/-- Modelled from the spec: `P2trTriangle` (its header is not among the
visible sources) — exactly three bounding half-edges (§3 of the spec). -/
structure P2trTriangle where
  e1 : EdgeId
  e2 : EdgeId
  e3 : EdgeId

/-- The heap of the program: partial maps from identifiers to records,
the allocation counter for fresh edge identifiers, and the log of
mesh removal notifications (each entry is one invocation of
`p2tr_mesh_on_edge_removed`, in order). -/
structure MeshState where
  points : PointId → Option P2trPoint
  edges : EdgeId → Option P2trEdge
  tris : TriId → Option P2trTriangle
  nextEdge : EdgeId
  log : List (MeshId × EdgeId)

/-- Overwrite a single edge slot of the heap. -/
def setEdge (s : MeshState) (i : EdgeId) (v : Option P2trEdge) : MeshState :=
  { s with edges := fun j => if j = i then v else s.edges j }

/-- Overwrite a single point slot of the heap. -/
def setPoint (s : MeshState) (i : PointId) (v : Option P2trPoint) : MeshState :=
  { s with points := fun j => if j = i then v else s.points j }

/-- Overwrite a single triangle slot of the heap. -/
def setTri (s : MeshState) (i : TriId) (v : Option P2trTriangle) : MeshState :=
  { s with tris := fun j => if j = i then v else s.tris j }

/-- Apply a field update to the edge record at `i`, if present (a C field
assignment through a valid pointer). -/
def updEdge (s : MeshState) (i : EdgeId) (f : P2trEdge → P2trEdge) : MeshState :=
  { s with edges := fun j => if j = i then (s.edges i).map f else s.edges j }

/-- Apply a field update to the point record at `i`, if present. -/
def updPoint (s : MeshState) (i : PointId) (f : P2trPoint → P2trPoint) : MeshState :=
  { s with points := fun j => if j = i then (s.points i).map f else s.points j }

/-- The C library `atan2 (y, x)`: the argument of the complex number
`x + y·i`, with range (−π, π] and `atan2 0 0 = 0`. -/
noncomputable def atan2 (y x : ℝ) : ℝ :=
  Complex.arg ⟨x, y⟩

/-- C macro `P2TR_EDGE_START`: the start point of a half-edge is its
mirror's end point. -/
def P2TR_EDGE_START (s : MeshState) (e : EdgeId) : Option PointId :=
  (s.edges e).bind fun r => (s.edges r.mirror).bind fun m => m.endP

/-- Modelled from the spec: point reference counting (§4.2) — increment the
point's reference count (`p2tr_point_ref`). -/
def p2tr_point_ref (s : MeshState) (p : PointId) : MeshState :=
  updPoint s p fun r => { r with refcount := r.refcount + 1 }

/-- Modelled from the spec: point reference counting (§4.2, §3 Lifecycle) —
decrement the point's reference count and destroy the point when the count
reaches zero (`p2tr_point_unref`). -/
def p2tr_point_unref (s : MeshState) (p : PointId) : MeshState :=
  { s with points := fun j =>
      if j = p then
        match s.points p with
        | none => none
        | some r =>
          if r.refcount - 1 = 0 then none
          else some { r with refcount := r.refcount - 1 }
      else s.points j }

/-- Modelled from the spec: insert an outgoing half-edge into a point's
incident set (§4.2, `_p2tr_point_insert_edge`; the spec describes the
collection as unordered, so insertion position is irrelevant). -/
def _p2tr_point_insert_edge (s : MeshState) (p : PointId) (e : EdgeId) : MeshState :=
  updPoint s p fun r => { r with outEdges := e :: r.outEdges }

/-- Modelled from the spec: remove an outgoing half-edge from a point's
incident set (§4.2, `_p2tr_point_remove_edge`), with set semantics. -/
def _p2tr_point_remove_edge (s : MeshState) (p : PointId) (e : EdgeId) : MeshState :=
  updPoint s p fun r => { r with outEdges := r.outEdges.filter (· ≠ e) }

/-- Modelled from the spec: resolution of a point's owning mesh (§4.2,
`p2tr_point_get_mesh`). -/
def p2tr_point_get_mesh (s : MeshState) (p : PointId) : Option MeshId :=
  (s.points p).bind fun r => r.mesh

/-- Modelled from the spec: the mesh removal-notification hook (§4.4,
`p2tr_mesh_on_edge_removed`) — record one notification for the given
half-edge direction. -/
def p2tr_mesh_on_edge_removed (s : MeshState) (mesh : MeshId) (e : EdgeId) : MeshState :=
  { s with log := s.log ++ [(mesh, e)] }

/-- Modelled from the spec: triangle removal (§4.3) — detach the triangle
from its three bounding half-edges by clearing each one's bound-triangle
reference, then reclaim the triangle (`p2tr_triangle_remove`). -/
def clearTri (r : P2trEdge) : P2trEdge :=
  { r with tri := none }

/-- Modelled from the spec: triangle removal (§4.3) — detach the triangle
from its three bounding half-edges by clearing each one's bound-triangle
reference, then reclaim the triangle (`p2tr_triangle_remove`). -/
def p2tr_triangle_remove (s : MeshState) (t : TriId) : MeshState :=
  match s.tris t with
  | none => s
  | some tr =>
    let s1 := updEdge s tr.e1 clearTri
    let s2 := updEdge s1 tr.e2 clearTri
    let s3 := updEdge s2 tr.e3 clearTri
    setTri s3 t none

/-- Source function `p2tr_edge_init`: build a half-edge record from the coordinates of its
start and end points, its end point, the constrained flag and its mirror.
Angle is `atan2 (end.y − start.y, end.x − start.x)`; the Delaunay flag
starts false, the reference count at zero, no bound triangle. -/
noncomputable def p2tr_edge_init (startC endC : P2trVector2) (endId : PointId)
    (constrained : Bool) (mirror : EdgeId) : P2trEdge :=
  { angle := atan2 (endC.y - startC.y) (endC.x - startC.x)
    constrained := constrained
    delaunay := false
    endP := some endId
    mirror := mirror
    refcount := 0
    tri := none }

/-- Source function `p2tr_edge_new`: allocate a mirrored pair of half-edges between the
points `a` and `b`, initialize both directions, take one reference on each
endpoint, register each direction with its start point's incident set, and
increment the forward edge's reference count.  Returns the new state and
the forward edge's identifier (the mirror is the next identifier). -/
noncomputable def p2tr_edge_new (s : MeshState) (a b : PointId)
    (constrained : Bool) : MeshState × EdgeId :=
  let e := s.nextEdge
  let m := s.nextEdge + 1
  let ac := ((s.points a).map fun r => r.c).getD ⟨0, 0⟩
  let bc := ((s.points b).map fun r => r.c).getD ⟨0, 0⟩
  let fwd := p2tr_edge_init ac bc b constrained m
  let mir := p2tr_edge_init bc ac a constrained e
  let s1 := setEdge (setEdge s e (some fwd)) m (some mir)
  let s2 := p2tr_point_ref (p2tr_point_ref s1 a) b
  let s3 := _p2tr_point_insert_edge (_p2tr_point_insert_edge s2 a e) b m
  let s4 := updEdge s3 e fun r => { r with refcount := r.refcount + 1 }
  ({ s4 with nextEdge := s.nextEdge + 2 }, e)

/-- Source function `p2tr_edge_ref`: increment the edge's own reference count. -/
def p2tr_edge_ref (s : MeshState) (e : EdgeId) : MeshState :=
  updEdge s e fun r => { r with refcount := r.refcount + 1 }

/-- Source function `p2tr_edge_is_removed`: an edge is removed iff its end reference is
cleared. -/
def p2tr_edge_is_removed (s : MeshState) (e : EdgeId) : Bool :=
  ((s.edges e).bind fun r => r.endP).isNone

/-- Source function `p2tr_edge_get_mesh`: delegate to the end point's owning mesh when the
edge is not removed; `none` otherwise. -/
def p2tr_edge_get_mesh (s : MeshState) (e : EdgeId) : Option MeshId :=
  match s.edges e with
  | none => none
  | some r =>
    match r.endP with
    | some p => p2tr_point_get_mesh s p
    | none => none

/-- The triangle cascade at the start of `p2tr_edge_remove`: remove the
triangle bound to the edge, if any, then the triangle bound to its mirror,
if any — the mirror's binding re-read from the state after the first
removal, as in the C code's sequential reads. -/
def p2tr_edge_remove_cascade (s : MeshState) (r : P2trEdge) : MeshState :=
  let s1 := match r.tri with
    | some t => p2tr_triangle_remove s t
    | none => s
  match (s1.edges r.mirror).bind fun mr => mr.tri with
  | some t => p2tr_triangle_remove s1 t
  | none => s1

/-- The body of `p2tr_edge_remove` after its guard: run the triangle
cascade, unregister the edge from its start point's incident set and the
mirror from the end point's set, tombstone both directions by clearing
their end references, and release one reference on each endpoint.  The
notification step of `p2tr_edge_remove` is applied on top of this state. -/
def p2tr_edge_remove_body (s : MeshState) (e : EdgeId) (r : P2trEdge)
    (startId endId : PointId) : MeshState :=
  let s2 := p2tr_edge_remove_cascade s r
  let s3 := _p2tr_point_remove_edge s2 startId e
  let s4 := _p2tr_point_remove_edge s3 endId r.mirror
  let s5 := updEdge s4 e fun r' => { r' with endP := none }
  let s6 := updEdge s5 r.mirror fun r' => { r' with endP := none }
  let s7 := p2tr_point_unref s6 startId
  p2tr_point_unref s7 endId

/-- Source function `p2tr_edge_remove`: no-op when the edge is already removed (its end
reference is `NULL`); otherwise resolve the owning mesh, run the removal
body, and — when a mesh was resolved — invoke the removal-notification
hook once for this direction and once for the mirror direction, after the
state transition is complete.  (The C code dereferences the mirror to read
the start point; a missing mirror record would be undefined behaviour in C
and is modelled as leaving the state unchanged.) -/
def p2tr_edge_remove (s : MeshState) (e : EdgeId) : MeshState :=
  match s.edges e with
  | none => s
  | some r =>
    match r.endP with
    | none => s
    | some endId =>
      match P2TR_EDGE_START s e with
      | none => s
      | some startId =>
        let mesh := p2tr_edge_get_mesh s e
        let s' := p2tr_edge_remove_body s e r startId endId
        match mesh with
        | some mid =>
          p2tr_mesh_on_edge_removed (p2tr_mesh_on_edge_removed s' mid e) mid r.mirror
        | none => s'

/-- Source function `p2tr_edge_free`: defensively remove the edge, then release the paired
storage of the edge and its mirror as one unit. -/
def p2tr_edge_free (s : MeshState) (e : EdgeId) : MeshState :=
  let s1 := p2tr_edge_remove s e
  match s.edges e with
  | none => s1
  | some r => setEdge (setEdge s1 e none) r.mirror none

/-- Source function `p2tr_edge_unref`: decrement the edge's own reference count; if it
reaches zero while the mirror's count is also zero, free the pair.  (The C
code dereferences the mirror to read its count; a missing mirror record
would be undefined behaviour in C and is modelled by a default count of
zero.) -/
def p2tr_edge_unref (s : MeshState) (e : EdgeId) : MeshState :=
  match s.edges e with
  | none => s
  | some r =>
    let r' := { r with refcount := r.refcount - 1 }
    let s1 := setEdge s e (some r')
    if r'.refcount = 0 ∧ ((s1.edges r.mirror).map fun mr => mr.refcount).getD 0 = 0
    then p2tr_edge_free s1 e
    else s1

/-- Modelled from the spec: `p2tr_math_length_sq2` (not among the visible
sources) — the squared Euclidean distance between two coordinate vectors
(§4.1: "Euclidean distance (and its square)"). -/
noncomputable def p2tr_math_length_sq2 (a b : P2trVector2) : ℝ :=
  (a.x - b.x) ^ 2 + (a.y - b.y) ^ 2

/-- Modelled from the spec: `p2tr_vector2_center` (not among the visible
sources) — the midpoint of two coordinate vectors (§4.1: circle "centered
at the edge's midpoint"). -/
noncomputable def p2tr_vector2_center (a b : P2trVector2) : P2trVector2 :=
  ⟨(a.x + b.x) / 2, (a.y + b.y) / 2⟩

/-- Modelled from the spec: `p2tr_vector2_sub` (not among the visible
sources) — componentwise vector difference. -/
noncomputable def p2tr_vector2_sub (a b : P2trVector2) : P2trVector2 :=
  ⟨a.x - b.x, a.y - b.y⟩

/-- Modelled from the spec: `p2tr_vector2_norm` (not among the visible
sources) — the Euclidean norm of a vector. -/
noncomputable def p2tr_vector2_norm (a : P2trVector2) : ℝ :=
  Real.sqrt (a.x ^ 2 + a.y ^ 2)

/-- The coordinate vectors of an edge's end point and start point, when the
edge, its mirror and both point records are present. -/
def edgeEndpoints (s : MeshState) (e : EdgeId) : Option (P2trVector2 × P2trVector2) :=
  match s.edges e with
  | none => none
  | some r =>
    match r.endP, P2TR_EDGE_START s e with
    | some pe, some ps =>
      match s.points pe, s.points ps with
      | some recE, some recS => some (recE.c, recS.c)
      | _, _ => none
    | _, _ => none

/-- Source function `p2tr_edge_get_length`: the Euclidean distance between the edge's end
and start points. -/
noncomputable def p2tr_edge_get_length (s : MeshState) (e : EdgeId) : Option ℝ :=
  (edgeEndpoints s e).map fun p => Real.sqrt (p2tr_math_length_sq2 p.1 p.2)

/-- Source function `p2tr_edge_get_length_squared`: the squared Euclidean distance between
the edge's end and start points. -/
noncomputable def p2tr_edge_get_length_squared (s : MeshState) (e : EdgeId) : Option ℝ :=
  (edgeEndpoints s e).map fun p => p2tr_math_length_sq2 p.1 p.2

/-- Source function `p2tr_edge_get_diametral_circle`: center at the midpoint of the end and
start points, radius the norm of the vector from the center to the end
point. -/
noncomputable def p2tr_edge_get_diametral_circle (s : MeshState) (e : EdgeId) :
    Option P2trCircle :=
  (edgeEndpoints s e).map fun p =>
    let center := p2tr_vector2_center p.1 p.2
    let radius := p2tr_vector2_sub p.1 center
    { center := center, radius := p2tr_vector2_norm radius }

/-- Source function `p2tr_edge_angle_between`: when the first edge's end point is the second
edge's start point, compute `W = π − e1.angle + e2.angle` and subtract `2π`
when the raw value exceeds `2π`.  Violation of the precondition raises
`p2tr_exception_programmatic`, a fatal abort, modelled as `none`. -/
noncomputable def p2tr_edge_angle_between (s : MeshState) (e1 e2 : EdgeId) : Option ℝ :=
  match s.edges e1, s.edges e2 with
  | some r1, some r2 =>
    if r1.endP ≠ P2TR_EDGE_START s e2 then none
    else
      let result := Real.pi - r1.angle + r2.angle
      some (if result > 2 * Real.pi then result - 2 * Real.pi else result)
  | _, _ => none

/-- Membership of a half-edge in a point's incident set. -/
def edgeInPoint (s : MeshState) (p : PointId) (e : EdgeId) : Prop :=
  ∃ pr, s.points p = some pr ∧ e ∈ pr.outEdges

/-- One successfully parsed declaration of the points/colors input file of
`main.c`: a `@` point line with two floats, a `#` color line with one
(gray) or three (RGB) floats, or a line matching neither pattern (at which
the reading loop breaks).  Float values are modelled over ℚ. -/
inductive Decl
  | point (x y : ℚ)
  | gray (v : ℚ)
  | rgb (r g b : ℚ)
  | other

/-- The reading loop of `read_points_file` in `main.c`, with both output
arrays supplied.  Each iteration starts with the point-coordinate buffer
`ptc` zeroed, optionally consumes one `@` point line into `ptc` (appending
the point to the points array), then optionally consumes one `#` color
line; when a color line was consumed, the value appended to the colors
array is `ptc` (the C code passes `ptc`, not `col`, to
`g_array_append_val`).  The loop breaks when an iteration finds neither a
point nor a color.  Returns (points array, colors array). -/
def read_points_file : List Decl → List (ℚ × ℚ) × List (ℚ × ℚ)
  | [] => ([], [])
  | .point x y :: .gray _ :: rest =>
    let r := read_points_file rest
    ((x, y) :: r.1, (x, y) :: r.2)
  | .point x y :: .rgb _ _ _ :: rest =>
    let r := read_points_file rest
    ((x, y) :: r.1, (x, y) :: r.2)
  | .point x y :: rest =>
    let r := read_points_file rest
    ((x, y) :: r.1, r.2)
  | .gray _ :: rest =>
    let r := read_points_file rest
    (r.1, (0, 0) :: r.2)
  | .rgb _ _ _ :: rest =>
    let r := read_points_file rest
    (r.1, (0, 0) :: r.2)
  | .other :: _ => ([], [])

/-! ## Concrete states used to instantiate the theorems -/

/-- A two-point mesh with one live edge pair: edge 0 runs from point 0 at
(0,0) to point 1 at (1,0); edge 1 is its mirror.  Both points belong to
mesh 0. -/
noncomputable def W : MeshState :=
  { points := fun j =>
      if j = 0 then some ⟨⟨0, 0⟩, [0], 2, some 0⟩
      else if j = 1 then some ⟨⟨1, 0⟩, [1], 2, some 0⟩
      else none
    edges := fun j =>
      if j = 0 then some ⟨0, false, false, some 1, 1, 1, none⟩
      else if j = 1 then some ⟨0, false, false, some 0, 0, 0, none⟩
      else none
    tris := fun _ => none
    nextEdge := 2
    log := [] }

/-- A mesh whose only edge record is already removed (end reference
cleared). -/
noncomputable def WR : MeshState :=
  { points := fun _ => none
    edges := fun j => if j = 0 then some ⟨0, false, false, none, 1, 0, none⟩ else none
    tris := fun _ => none
    nextEdge := 2
    log := [] }

/-- Like `W` but with point 1 at (2,0), so that edge 0 runs from (0,0) to
(2,0). -/
noncomputable def W8 : MeshState :=
  { points := fun j =>
      if j = 0 then some ⟨⟨0, 0⟩, [0], 2, none⟩
      else if j = 1 then some ⟨⟨2, 0⟩, [1], 2, none⟩
      else none
    edges := fun j =>
      if j = 0 then some ⟨0, false, false, some 1, 1, 1, none⟩
      else if j = 1 then some ⟨0, false, false, some 0, 0, 0, none⟩
      else none
    tris := fun _ => none
    nextEdge := 2
    log := [] }

/-- Like `W` but with the mirror edge 1 bound to triangle 1 while edge 0
itself is bound to no triangle — a boundary-edge configuration where only
the mirror direction has a face (a degenerate triangle record suffices to
exercise the cascade). -/
noncomputable def WT : MeshState :=
  { points := fun j =>
      if j = 0 then some ⟨⟨0, 0⟩, [0], 2, some 0⟩
      else if j = 1 then some ⟨⟨1, 0⟩, [1], 2, some 0⟩
      else none
    edges := fun j =>
      if j = 0 then some ⟨0, false, false, some 1, 1, 1, none⟩
      else if j = 1 then some ⟨0, false, false, some 0, 0, 0, some 1⟩
      else none
    tris := fun j => if j = 1 then some ⟨1, 1, 1⟩ else none
    nextEdge := 2
    log := [] }

/-- A one-point mesh (point 0 at the origin, no edges yet), used to create
a degenerate edge from a point to itself. -/
noncomputable def WD : MeshState :=
  { points := fun j => if j = 0 then some ⟨⟨0, 0⟩, [], 1, none⟩ else none
    edges := fun _ => none
    tris := fun _ => none
    nextEdge := 0
    log := [] }

/-- A three-point mesh with no edges: point 0 at (0,0), point 1 at (1,0),
point 2 at (1,1), used to build the spec's `angle_between` test vector with
`p2tr_edge_new`. -/
noncomputable def W3 : MeshState :=
  { points := fun j =>
      if j = 0 then some ⟨⟨0, 0⟩, [], 1, none⟩
      else if j = 1 then some ⟨⟨1, 0⟩, [], 1, none⟩
      else if j = 2 then some ⟨⟨1, 1⟩, [], 1, none⟩
      else none
    edges := fun _ => none
    tris := fun _ => none
    nextEdge := 0
    log := [] }

/-! ## Helper lemmas -/

theorem updEdge_points (s : MeshState) (i : EdgeId) (f : P2trEdge → P2trEdge) :
    (updEdge s i f).points = s.points := rfl

theorem updEdge_log (s : MeshState) (i : EdgeId) (f : P2trEdge → P2trEdge) :
    (updEdge s i f).log = s.log := rfl

theorem updEdge_tris (s : MeshState) (i : EdgeId) (f : P2trEdge → P2trEdge) :
    (updEdge s i f).tris = s.tris := rfl

theorem updEdge_edges_self (s : MeshState) (i : EdgeId) (f : P2trEdge → P2trEdge) :
    (updEdge s i f).edges i = (s.edges i).map f := by
  simp [updEdge]

theorem updEdge_edges_ne (s : MeshState) (i j : EdgeId) (f : P2trEdge → P2trEdge)
    (h : j ≠ i) : (updEdge s i f).edges j = s.edges j := by
  simp [updEdge, h]

theorem updEdge_edges_eq (s : MeshState) (i j : EdgeId) (f : P2trEdge → P2trEdge)
    (h : j = i) : (updEdge s i f).edges j = (s.edges j).map f := by
  subst h; exact updEdge_edges_self s j f

theorem setEdge_edges_self (s : MeshState) (i : EdgeId) (v : Option P2trEdge) :
    (setEdge s i v).edges i = v := by
  simp [setEdge]

theorem setEdge_edges_ne (s : MeshState) (i j : EdgeId) (v : Option P2trEdge)
    (h : j ≠ i) : (setEdge s i v).edges j = s.edges j := by
  simp [setEdge, h]

theorem updPoint_edges (s : MeshState) (i : PointId) (f : P2trPoint → P2trPoint) :
    (updPoint s i f).edges = s.edges := rfl

theorem updPoint_log (s : MeshState) (i : PointId) (f : P2trPoint → P2trPoint) :
    (updPoint s i f).log = s.log := rfl

theorem updPoint_tris (s : MeshState) (i : PointId) (f : P2trPoint → P2trPoint) :
    (updPoint s i f).tris = s.tris := rfl

theorem point_unref_edges (s : MeshState) (p : PointId) :
    (p2tr_point_unref s p).edges = s.edges := rfl

theorem point_unref_log (s : MeshState) (p : PointId) :
    (p2tr_point_unref s p).log = s.log := rfl

theorem point_unref_tris (s : MeshState) (p : PointId) :
    (p2tr_point_unref s p).tris = s.tris := rfl

theorem triangle_remove_points (s : MeshState) (t : TriId) :
    (p2tr_triangle_remove s t).points = s.points := by
  unfold p2tr_triangle_remove
  cases s.tris t <;> rfl

theorem triangle_remove_log (s : MeshState) (t : TriId) :
    (p2tr_triangle_remove s t).log = s.log := by
  unfold p2tr_triangle_remove
  cases s.tris t <;> rfl

theorem clearTri_endP (r : P2trEdge) : (clearTri r).endP = r.endP := rfl

theorem updEdge_clearTri_endP (s : MeshState) (i j : EdgeId) :
    ((updEdge s i clearTri).edges j).map (fun r => r.endP) =
      (s.edges j).map fun r => r.endP := by
  by_cases h : j = i
  · subst h
    rw [updEdge_edges_self]
    cases s.edges j <;> rfl
  · rw [updEdge_edges_ne _ _ _ _ h]

/-- Triangle removal never changes any edge's end reference (it only resets
`tri` fields); in particular it preserves which edge records exist. -/
theorem triangle_remove_endP (s : MeshState) (t : TriId) (j : EdgeId) :
    ((p2tr_triangle_remove s t).edges j).map (fun r => r.endP) =
      (s.edges j).map fun r => r.endP := by
  unfold p2tr_triangle_remove
  cases htr : s.tris t with
  | none => rfl
  | some tr =>
    show (((updEdge (updEdge (updEdge s tr.e1 clearTri) tr.e2 clearTri) tr.e3
        clearTri).edges j).map fun r => r.endP) = _
    rw [updEdge_clearTri_endP, updEdge_clearTri_endP, updEdge_clearTri_endP]

/-- Triangle removal leaves alone every edge other than the removed
triangle's three bounding half-edges. -/
theorem triangle_remove_edges_skip (s : MeshState) (t : TriId) (tr : P2trTriangle)
    (j : EdgeId) (htr : s.tris t = some tr)
    (h1 : j ≠ tr.e1) (h2 : j ≠ tr.e2) (h3 : j ≠ tr.e3) :
    (p2tr_triangle_remove s t).edges j = s.edges j := by
  unfold p2tr_triangle_remove
  rw [htr]
  show (updEdge (updEdge (updEdge s tr.e1 clearTri) tr.e2 clearTri) tr.e3
      clearTri).edges j = _
  rw [updEdge_edges_ne _ _ _ _ h3, updEdge_edges_ne _ _ _ _ h2,
    updEdge_edges_ne _ _ _ _ h1]

/-- Triangle removal clears the bound-triangle reference of each of the
removed triangle's bounding half-edges. -/
theorem triangle_remove_clears (s : MeshState) (t : TriId) (tr : P2trTriangle)
    (j : EdgeId) (htr : s.tris t = some tr)
    (hj : j = tr.e1 ∨ j = tr.e2 ∨ j = tr.e3) :
    (p2tr_triangle_remove s t).edges j = (s.edges j).map clearTri := by
  unfold p2tr_triangle_remove
  rw [htr]
  show (updEdge (updEdge (updEdge s tr.e1 clearTri) tr.e2 clearTri) tr.e3
      clearTri).edges j = _
  have hid : ∀ o : Option P2trEdge, (o.map clearTri).map clearTri = o.map clearTri := by
    intro o; cases o <;> rfl
  by_cases h3 : j = tr.e3
  · rw [updEdge_edges_eq _ _ _ _ h3]
    by_cases h2 : j = tr.e2
    · rw [updEdge_edges_eq _ _ _ _ h2]
      by_cases h1 : j = tr.e1
      · rw [updEdge_edges_eq _ _ _ _ h1, hid, hid]
      · rw [updEdge_edges_ne _ _ _ _ h1, hid]
    · rw [updEdge_edges_ne _ _ _ _ h2]
      by_cases h1 : j = tr.e1
      · rw [updEdge_edges_eq _ _ _ _ h1, hid]
      · rw [updEdge_edges_ne _ _ _ _ h1]
  · rw [updEdge_edges_ne _ _ _ _ h3]
    by_cases h2 : j = tr.e2
    · rw [updEdge_edges_eq _ _ _ _ h2]
      by_cases h1 : j = tr.e1
      · rw [updEdge_edges_eq _ _ _ _ h1, hid]
      · rw [updEdge_edges_ne _ _ _ _ h1]
    · rw [updEdge_edges_ne _ _ _ _ h2]
      by_cases h1 : j = tr.e1
      · rw [updEdge_edges_eq _ _ _ _ h1]
      · rcases hj with h | h | h <;> contradiction

/-- Triangle removal reclaims the removed triangle's record. -/
theorem triangle_remove_tris_self (s : MeshState) (t : TriId) (tr : P2trTriangle)
    (htr : s.tris t = some tr) : (p2tr_triangle_remove s t).tris t = none := by
  unfold p2tr_triangle_remove
  rw [htr]
  simp [setTri, updEdge]

/-- Triangle removal leaves every other triangle record unchanged. -/
theorem triangle_remove_tris_ne (s : MeshState) (t t' : TriId) (h : t' ≠ t) :
    (p2tr_triangle_remove s t).tris t' = s.tris t' := by
  unfold p2tr_triangle_remove
  cases s.tris t with
  | none => rfl
  | some tr => simp [setTri, updEdge, h]

/-- Each edge lookup after a triangle removal is either unchanged or has
only its `tri` field cleared. -/
theorem triangle_remove_edges_cases (s : MeshState) (t : TriId) (j : EdgeId) :
    (p2tr_triangle_remove s t).edges j = s.edges j ∨
      (p2tr_triangle_remove s t).edges j = (s.edges j).map clearTri := by
  cases htr : s.tris t with
  | none =>
    left
    unfold p2tr_triangle_remove
    rw [htr]
  | some tr =>
    by_cases h1 : j = tr.e1
    · exact Or.inr (triangle_remove_clears s t tr j htr (Or.inl h1))
    · by_cases h2 : j = tr.e2
      · exact Or.inr (triangle_remove_clears s t tr j htr (Or.inr (Or.inl h2)))
      · by_cases h3 : j = tr.e3
        · exact Or.inr (triangle_remove_clears s t tr j htr (Or.inr (Or.inr h3)))
        · exact Or.inl (triangle_remove_edges_skip s t tr j htr h1 h2 h3)

/-- The triangle cascade never changes the `points` component. -/
theorem cascade_points (s : MeshState) (r : P2trEdge) :
    (p2tr_edge_remove_cascade s r).points = s.points := by
  unfold p2tr_edge_remove_cascade
  cases htri : r.tri with
  | none =>
    simp only
    cases hmt : (s.edges r.mirror).bind fun mr => mr.tri with
    | none => simp only [hmt]
    | some t2 => simp only [hmt, triangle_remove_points]
  | some t =>
    simp only
    cases hmt : ((p2tr_triangle_remove s t).edges r.mirror).bind fun mr => mr.tri with
    | none => simp only [hmt, triangle_remove_points]
    | some t2 => simp only [hmt, triangle_remove_points]

/-- The triangle cascade never changes the notification log. -/
theorem cascade_log (s : MeshState) (r : P2trEdge) :
    (p2tr_edge_remove_cascade s r).log = s.log := by
  unfold p2tr_edge_remove_cascade
  cases htri : r.tri with
  | none =>
    simp only
    cases hmt : (s.edges r.mirror).bind fun mr => mr.tri with
    | none => simp only [hmt]
    | some t2 => simp only [hmt, triangle_remove_log]
  | some t =>
    simp only
    cases hmt : ((p2tr_triangle_remove s t).edges r.mirror).bind fun mr => mr.tri with
    | none => simp only [hmt, triangle_remove_log]
    | some t2 => simp only [hmt, triangle_remove_log]

/-- The triangle cascade never changes any edge's end reference. -/
theorem cascade_endP (s : MeshState) (r : P2trEdge) (j : EdgeId) :
    ((p2tr_edge_remove_cascade s r).edges j).map (fun x => x.endP) =
      (s.edges j).map fun x => x.endP := by
  unfold p2tr_edge_remove_cascade
  cases htri : r.tri with
  | none =>
    simp only
    cases hmt : (s.edges r.mirror).bind fun mr => mr.tri with
    | none => simp only [hmt]
    | some t2 => simp only [hmt, triangle_remove_endP]
  | some t =>
    simp only
    cases hmt : ((p2tr_triangle_remove s t).edges r.mirror).bind fun mr => mr.tri with
    | none => simp only [hmt, triangle_remove_endP]
    | some t2 => simp only [hmt, triangle_remove_endP, triangle_remove_endP]

/-- After the removal body, both the edge and its mirror still have records
and both end references are cleared, and the notification log is untouched
by the body. -/
theorem remove_body_spec (s : MeshState) (e : EdgeId) (r : P2trEdge) (a b : PointId)
    (hne : r.mirror ≠ e)
    (hep : (s.edges e).map (fun x => x.endP) = some (some b))
    (hmp : (s.edges r.mirror).map (fun x => x.endP) = some (some a)) :
    (∃ x, (p2tr_edge_remove_body s e r a b).edges e = some x ∧ x.endP = none) ∧
      (∃ y, (p2tr_edge_remove_body s e r a b).edges r.mirror = some y ∧
        y.endP = none) ∧
      (p2tr_edge_remove_body s e r a b).log = s.log := by
  have hce := cascade_endP s r e
  have hcm := cascade_endP s r r.mirror
  rw [hep] at hce
  rw [hmp] at hcm
  obtain ⟨x0, hx0⟩ : ∃ x0, (p2tr_edge_remove_cascade s r).edges e = some x0 := by
    cases hq : (p2tr_edge_remove_cascade s r).edges e with
    | none => rw [hq] at hce; cases hce
    | some x0 => exact ⟨x0, rfl⟩
  obtain ⟨y0, hy0⟩ : ∃ y0, (p2tr_edge_remove_cascade s r).edges r.mirror = some y0 := by
    cases hq : (p2tr_edge_remove_cascade s r).edges r.mirror with
    | none => rw [hq] at hcm; cases hcm
    | some y0 => exact ⟨y0, rfl⟩
  refine ⟨⟨{ x0 with endP := none }, ?_, rfl⟩, ⟨{ y0 with endP := none }, ?_, rfl⟩, ?_⟩
  · show (updEdge (updEdge _ e _) r.mirror _).edges e = _
    rw [updEdge_edges_ne _ _ _ _ (Ne.symm hne), updEdge_edges_self]
    show ((p2tr_edge_remove_cascade s r).edges e).map _ = _
    rw [hx0]
    rfl
  · show (updEdge (updEdge _ e _) r.mirror _).edges r.mirror = _
    rw [updEdge_edges_self, updEdge_edges_ne _ _ _ _ hne]
    show ((p2tr_edge_remove_cascade s r).edges r.mirror).map _ = _
    rw [hy0]
    rfl
  · show (p2tr_edge_remove_cascade s r).log = s.log
    exact cascade_log s r

/-- An edge present in a point's incident set after a point-level unref was
present before it. -/
theorem point_unref_mem (s : MeshState) (p' p : PointId) (x : EdgeId)
    (h : edgeInPoint (p2tr_point_unref s p') p x) : edgeInPoint s p x := by
  obtain ⟨pr, hpr, hx⟩ := h
  by_cases hpp : p = p'
  · subst hpp
    simp only [p2tr_point_unref, if_pos rfl] at hpr
    cases hsp : s.points p with
    | none => rw [hsp] at hpr; simp at hpr
    | some r0 =>
      rw [hsp] at hpr
      simp only [if_true] at hpr
      by_cases hrc : r0.refcount - 1 = 0
      · rw [if_pos hrc] at hpr; cases hpr
      · rw [if_neg hrc] at hpr
        cases hpr
        exact ⟨r0, hsp, hx⟩
  · simp only [p2tr_point_unref, if_neg hpp] at hpr
    exact ⟨pr, hpr, hx⟩

/-- An edge present in a point's incident set after an incident-set removal
was present before it and, on the unregistered point, differs from the
unregistered edge. -/
theorem point_remove_edge_mem (s : MeshState) (p' : PointId) (y : EdgeId)
    (p : PointId) (x : EdgeId)
    (h : edgeInPoint (_p2tr_point_remove_edge s p' y) p x) :
    edgeInPoint s p x ∧ (p = p' → x ≠ y) := by
  obtain ⟨pr, hpr, hx⟩ := h
  by_cases hpp : p = p'
  · subst hpp
    simp only [_p2tr_point_remove_edge, updPoint, if_pos rfl] at hpr
    cases hsp : s.points p with
    | none => rw [hsp] at hpr; cases hpr
    | some r0 =>
      rw [hsp] at hpr
      simp only [Option.map_some'] at hpr
      cases hpr
      rw [List.mem_filter] at hx
      refine ⟨⟨r0, hsp, hx.1⟩, fun _ => ?_⟩
      simpa using hx.2
  · simp only [_p2tr_point_remove_edge, updPoint, if_neg hpp] at hpr
    exact ⟨⟨pr, hpr, hx⟩, fun hc => absurd hc hpp⟩

/-- An edge present in some point's incident set after the removal body was
present before it, is not the removed direction on the start point, and is
not the mirror direction on the end point. -/
theorem remove_body_mem (s : MeshState) (e : EdgeId) (r : P2trEdge) (a b : PointId)
    (p : PointId) (x : EdgeId)
    (h : edgeInPoint (p2tr_edge_remove_body s e r a b) p x) :
    edgeInPoint s p x ∧ (p = a → x ≠ e) ∧ (p = b → x ≠ r.mirror) := by
  replace h := point_unref_mem _ _ _ _ h
  replace h := point_unref_mem _ _ _ _ h
  replace h : edgeInPoint
      (_p2tr_point_remove_edge (_p2tr_point_remove_edge
        (p2tr_edge_remove_cascade s r) a e) b r.mirror) p x := h
  obtain ⟨h, hb⟩ := point_remove_edge_mem _ _ _ _ _ h
  obtain ⟨h, ha⟩ := point_remove_edge_mem _ _ _ _ _ h
  obtain ⟨pr, hpr, hx⟩ := h
  rw [cascade_points] at hpr
  exact ⟨⟨pr, hpr, hx⟩, ha, hb⟩

/-- Reduction of `p2tr_edge_remove` on a live edge with a live mirror: the
body runs, then the notification hook fires once per direction when a mesh
was resolved. -/
theorem remove_eq (s : MeshState) (e : EdgeId) (r mr : P2trEdge) (a b : PointId)
    (he : s.edges e = some r) (hend : r.endP = some b)
    (hm : s.edges r.mirror = some mr) (hstart : mr.endP = some a) :
    p2tr_edge_remove s e =
      match p2tr_edge_get_mesh s e with
      | some mid =>
        p2tr_mesh_on_edge_removed
          (p2tr_mesh_on_edge_removed (p2tr_edge_remove_body s e r a b) mid e)
          mid r.mirror
      | none => p2tr_edge_remove_body s e r a b := by
  have hst : P2TR_EDGE_START s e = some a := by
    simp [P2TR_EDGE_START, he, hm, hstart]
  unfold p2tr_edge_remove
  rw [he]
  simp only [hend, hst]

/-- The forward edge record created by `p2tr_edge_new`: the initialized
record with its reference count incremented to one. -/
theorem edge_new_edges_fwd (s : MeshState) (a b : PointId) (k : Bool)
    (pa pb : P2trPoint) (e m : EdgeId)
    (ha : s.points a = some pa) (hb : s.points b = some pb)
    (hE : s.nextEdge = e) (hM : s.nextEdge + 1 = m) :
    (p2tr_edge_new s a b k).1.edges e =
      some { p2tr_edge_init pa.c pb.c b k m with refcount := 1 } := by
  subst hE hM
  unfold p2tr_edge_new
  simp only [ha, hb, Option.map_some', Option.getD_some]
  have hne : s.nextEdge ≠ s.nextEdge + 1 := (Nat.succ_ne_self s.nextEdge).symm
  show (updEdge _ s.nextEdge _).edges s.nextEdge = _
  rw [updEdge_edges_self]
  show ((setEdge (setEdge s s.nextEdge _) (s.nextEdge + 1) _).edges s.nextEdge).map _ = _
  rw [setEdge_edges_ne _ _ _ _ hne, setEdge_edges_self]
  rfl

/-- The mirror edge record created by `p2tr_edge_new`: the initialized
record for the opposite direction, reference count zero. -/
theorem edge_new_edges_mir (s : MeshState) (a b : PointId) (k : Bool)
    (pa pb : P2trPoint) (e m : EdgeId)
    (ha : s.points a = some pa) (hb : s.points b = some pb)
    (hE : s.nextEdge = e) (hM : s.nextEdge + 1 = m) :
    (p2tr_edge_new s a b k).1.edges m = some (p2tr_edge_init pb.c pa.c a k e) := by
  subst hE hM
  unfold p2tr_edge_new
  simp only [ha, hb, Option.map_some', Option.getD_some]
  have hne : s.nextEdge + 1 ≠ s.nextEdge := Nat.succ_ne_self s.nextEdge
  show (updEdge _ s.nextEdge _).edges (s.nextEdge + 1) = _
  rw [updEdge_edges_ne _ _ _ _ hne]
  show (setEdge (setEdge s s.nextEdge _) (s.nextEdge + 1) _).edges (s.nextEdge + 1) = _
  rw [setEdge_edges_self]

/-- Source function `p2tr_edge_new` leaves every other edge slot unchanged. -/
theorem edge_new_edges_other (s : MeshState) (a b : PointId) (k : Bool) (j : EdgeId)
    (hj : j ≠ s.nextEdge) (hj2 : j ≠ s.nextEdge + 1) :
    (p2tr_edge_new s a b k).1.edges j = s.edges j := by
  unfold p2tr_edge_new
  show (updEdge _ s.nextEdge _).edges j = _
  rw [updEdge_edges_ne _ _ _ _ hj]
  show (setEdge (setEdge s s.nextEdge _) (s.nextEdge + 1) _).edges j = _
  rw [setEdge_edges_ne _ _ _ _ hj2, setEdge_edges_ne _ _ _ _ hj]

/-! ## Claim theorems -/

/-- C6: `remove()` is idempotent — calling `p2tr_edge_remove` on an edge
that is already removed (its end reference is cleared) is a successful
no-op: the state is returned unchanged, so the edge, its mirror, the
incident sets, the reference counts and the mesh are all untouched. -/
theorem edge_remove_idempotent_noop (s : MeshState) (e : EdgeId) (r : P2trEdge)
    (he : s.edges e = some r) (hend : r.endP = none) :
    p2tr_edge_remove s e = s := by
  unfold p2tr_edge_remove
  rw [he]
  simp only [hend]

theorem edge_remove_idempotent_noop_witness :
    WR.edges 0 = some ⟨0, false, false, none, 1, 0, none⟩ ∧
      p2tr_edge_remove WR 0 = WR :=
  ⟨rfl, edge_remove_idempotent_noop WR 0 ⟨0, false, false, none, 1, 0, none⟩ rfl rfl⟩

/-- C7: `p2tr_edge_angle_between` on two edges where the first edge's end
point is not the second edge's start point signals the fatal
`p2tr_exception_programmatic` precondition failure (modelled as `none`)
and does not return a value. -/
theorem angle_between_nonconsecutive_returns_none (s : MeshState) (e1 e2 : EdgeId)
    (r1 r2 : P2trEdge) (h1 : s.edges e1 = some r1) (h2 : s.edges e2 = some r2)
    (hne : r1.endP ≠ P2TR_EDGE_START s e2) :
    p2tr_edge_angle_between s e1 e2 = none := by
  unfold p2tr_edge_angle_between
  rw [h1, h2]
  simp only [if_pos hne]

theorem angle_between_nonconsecutive_returns_none_witness :
    (some 1 : Option PointId) ≠ P2TR_EDGE_START W 0 ∧
      p2tr_edge_angle_between W 0 0 = none :=
  ⟨by decide,
    angle_between_nonconsecutive_returns_none W 0 0
      ⟨0, false, false, some 1, 1, 1, none⟩ ⟨0, false, false, some 1, 1, 1, none⟩
      rfl rfl (by decide)⟩

/-- C10: in the `read_points_file` loop, every successfully parsed color
(`#`) line appends to the colors array the point-coordinate buffer of that
loop iteration — the coordinates of the `@` line read just before, or
zeros if that iteration read no point — and never the parsed gray/RGB
color components, which do not appear in the output at all. -/
theorem read_points_file_appends_point_buffer_for_colors :
    (∀ (x y v : ℚ) (rest : List Decl),
      read_points_file (.point x y :: .gray v :: rest) =
        ((x, y) :: (read_points_file rest).1, (x, y) :: (read_points_file rest).2)) ∧
    (∀ (x y c1 c2 c3 : ℚ) (rest : List Decl),
      read_points_file (.point x y :: .rgb c1 c2 c3 :: rest) =
        ((x, y) :: (read_points_file rest).1, (x, y) :: (read_points_file rest).2)) ∧
    (∀ (v : ℚ) (rest : List Decl),
      read_points_file (.gray v :: rest) =
        ((read_points_file rest).1, (0, 0) :: (read_points_file rest).2)) ∧
    (∀ (c1 c2 c3 : ℚ) (rest : List Decl),
      read_points_file (.rgb c1 c2 c3 :: rest) =
        ((read_points_file rest).1, (0, 0) :: (read_points_file rest).2)) :=
  ⟨fun _ _ _ _ => rfl, fun _ _ _ _ _ _ => rfl, fun _ _ => rfl, fun _ _ _ _ => rfl⟩

/-- C5: `p2tr_edge_unref` decrements the edge's own reference count and
reclaims the pair's storage exactly when that count reaches zero while the
mirror's count is also zero; while either count is nonzero the pair
survives (with only the edge's count decremented). -/
theorem edge_unref_frees_iff_both_refcounts_zero (s : MeshState) (e : EdgeId)
    (r mr : P2trEdge) (he : s.edges e = some r) (hm : s.edges r.mirror = some mr)
    (hne : r.mirror ≠ e) :
    (((p2tr_edge_unref s e).edges e = none ∧
        (p2tr_edge_unref s e).edges r.mirror = none) ↔
      (r.refcount - 1 = 0 ∧ mr.refcount = 0)) ∧
    (¬(r.refcount - 1 = 0 ∧ mr.refcount = 0) →
      (p2tr_edge_unref s e).edges e = some { r with refcount := r.refcount - 1 } ∧
      (p2tr_edge_unref s e).edges r.mirror = some mr) := by
  unfold p2tr_edge_unref
  rw [he]
  have hs1m : (setEdge s e (some { r with refcount := r.refcount - 1 })).edges
      r.mirror = some mr := by
    simp [setEdge, hne, hm]
  have hs1e : (setEdge s e (some { r with refcount := r.refcount - 1 })).edges
      e = some { r with refcount := r.refcount - 1 } := by
    simp [setEdge]
  simp only [hs1m, Option.map_some', Option.getD_some]
  by_cases hc : r.refcount - 1 = 0 ∧ mr.refcount = 0
  · rw [if_pos hc]
    have hfree : ∀ j, j = e ∨ j = r.mirror →
        (p2tr_edge_free (setEdge s e (some { r with refcount := r.refcount - 1 }))
          e).edges j = none := by
      intro j hj
      unfold p2tr_edge_free
      rw [hs1e]
      rcases hj with hj | hj
      · subst hj
        by_cases hjm : j = r.mirror
        · simp [setEdge, hjm]
        · simp [setEdge, hjm]
      · subst hj
        simp [setEdge]
    refine ⟨⟨fun _ => hc, fun _ => ⟨hfree e (Or.inl rfl), hfree r.mirror (Or.inr rfl)⟩⟩,
      fun hn => absurd hc hn⟩
  · rw [if_neg hc]
    refine ⟨⟨fun hcontra => ?_, fun hcc => absurd hcc hc⟩, fun _ => ⟨hs1e, hs1m⟩⟩
    rw [hs1e] at hcontra
    cases hcontra.1

theorem edge_unref_frees_iff_both_refcounts_zero_witness :
    W.edges 0 = some ⟨0, false, false, some 1, 1, 1, none⟩ ∧
      (p2tr_edge_unref W 0).edges 0 = none ∧ (p2tr_edge_unref W 0).edges 1 = none :=
  ⟨rfl,
    (edge_unref_frees_iff_both_refcounts_zero W 0
      ⟨0, false, false, some 1, 1, 1, none⟩ ⟨0, false, false, some 0, 0, 0, none⟩
      rfl rfl (by decide)).1.mpr ⟨by decide, by decide⟩⟩

/-- C3: after `p2tr_edge_remove` on a live edge, `p2tr_edge_is_removed` is
true for the edge and its mirror (both end references cleared in the same
operation), and neither the edge nor its mirror remains in either
endpoint's incident set.  The hypotheses state that the edge pair is
well-formed (live mirror pair between start point `a` and end point `b`)
and that, when the endpoints are distinct, each direction was registered
only with its own start point — an invariant of the data model. -/
theorem edge_remove_tombstones_and_detaches (s : MeshState) (e : EdgeId)
    (r mr : P2trEdge) (a b : PointId)
    (he : s.edges e = some r) (hend : r.endP = some b)
    (hm : s.edges r.mirror = some mr) (hstart : mr.endP = some a)
    (hne : r.mirror ≠ e)
    (hbe : a ≠ b → ¬ edgeInPoint s b e)
    (ham : a ≠ b → ¬ edgeInPoint s a r.mirror) :
    p2tr_edge_is_removed (p2tr_edge_remove s e) e = true ∧
    p2tr_edge_is_removed (p2tr_edge_remove s e) r.mirror = true ∧
    ¬ edgeInPoint (p2tr_edge_remove s e) a e ∧
    ¬ edgeInPoint (p2tr_edge_remove s e) a r.mirror ∧
    ¬ edgeInPoint (p2tr_edge_remove s e) b e ∧
    ¬ edgeInPoint (p2tr_edge_remove s e) b r.mirror := by
  have hep : (s.edges e).map (fun x => x.endP) = some (some b) := by
    rw [he, Option.map_some', hend]
  have hmp : (s.edges r.mirror).map (fun x => x.endP) = some (some a) := by
    rw [hm, Option.map_some', hstart]
  obtain ⟨⟨x, hx, hxe⟩, ⟨y, hy, hye⟩, -⟩ := remove_body_spec s e r a b hne hep hmp
  have hmem : ∀ p q, edgeInPoint (p2tr_edge_remove_body s e r a b) p q →
      edgeInPoint s p q ∧ (p = a → q ≠ e) ∧ (p = b → q ≠ r.mirror) :=
    fun p q h => remove_body_mem s e r a b p q h
  have hnotin : ¬ edgeInPoint (p2tr_edge_remove_body s e r a b) a e ∧
      ¬ edgeInPoint (p2tr_edge_remove_body s e r a b) a r.mirror ∧
      ¬ edgeInPoint (p2tr_edge_remove_body s e r a b) b e ∧
      ¬ edgeInPoint (p2tr_edge_remove_body s e r a b) b r.mirror := by
    refine ⟨fun h => (hmem a e h).2.1 rfl rfl, fun h => ?_, fun h => ?_,
      fun h => (hmem b r.mirror h).2.2 rfl rfl⟩
    · obtain ⟨hin, -, hb2⟩ := hmem a r.mirror h
      by_cases hab : a = b
      · exact hb2 hab rfl
      · exact ham hab hin
    · obtain ⟨hin, ha2, -⟩ := hmem b e h
      by_cases hab : a = b
      · exact ha2 hab.symm rfl
      · exact hbe hab hin
  rw [remove_eq s e r mr a b he hend hm hstart]
  cases hmesh : p2tr_edge_get_mesh s e with
  | none =>
    simp only
    exact ⟨by simp [p2tr_edge_is_removed, hx, hxe],
      by simp [p2tr_edge_is_removed, hy, hye],
      hnotin.1, hnotin.2.1, hnotin.2.2.1, hnotin.2.2.2⟩
  | some mid =>
    simp only
    exact ⟨by simp [p2tr_edge_is_removed, p2tr_mesh_on_edge_removed, hx, hxe],
      by simp [p2tr_edge_is_removed, p2tr_mesh_on_edge_removed, hy, hye],
      hnotin.1, hnotin.2.1, hnotin.2.2.1, hnotin.2.2.2⟩

theorem edge_remove_tombstones_and_detaches_witness :
    W.edges 0 = some ⟨0, false, false, some 1, 1, 1, none⟩ ∧
      (p2tr_edge_is_removed (p2tr_edge_remove W 0) 0 = true ∧
        p2tr_edge_is_removed (p2tr_edge_remove W 0) 1 = true ∧
        ¬ edgeInPoint (p2tr_edge_remove W 0) 0 0 ∧
        ¬ edgeInPoint (p2tr_edge_remove W 0) 0 1 ∧
        ¬ edgeInPoint (p2tr_edge_remove W 0) 1 0 ∧
        ¬ edgeInPoint (p2tr_edge_remove W 0) 1 1) :=
  ⟨rfl,
    edge_remove_tombstones_and_detaches W 0
      ⟨0, false, false, some 1, 1, 1, none⟩ ⟨0, false, false, some 0, 0, 0, none⟩
      0 1 rfl rfl rfl rfl (by decide)
      (fun _ h => by
        obtain ⟨pr, hpr, hmem⟩ := h
        rw [show W.points 1 = some ⟨⟨1, 0⟩, [1], 2, some 0⟩ from rfl] at hpr
        cases hpr
        simp at hmem)
      (fun _ h => by
        obtain ⟨pr, hpr, hmem⟩ := h
        rw [show W.points 0 = some ⟨⟨0, 0⟩, [0], 2, some 0⟩ from rfl] at hpr
        cases hpr
        simp at hmem)⟩

/-- C9: when a live half-edge with a resolvable owning mesh is removed,
`p2tr_edge_remove` equals the removal body followed by exactly one
invocation of the mesh's removal-notification hook for this direction and
exactly one for the mirror direction — so the log is extended by exactly
those two entries — and the hooks are invoked only after the state
transition is complete: in the body state both directions are already
removed, and the body itself logged nothing. -/
theorem edge_remove_notifies_once_per_direction_after_transition
    (s : MeshState) (e : EdgeId) (r mr : P2trEdge) (a b : PointId) (mid : MeshId)
    (he : s.edges e = some r) (hend : r.endP = some b)
    (hm : s.edges r.mirror = some mr) (hstart : mr.endP = some a)
    (hne : r.mirror ≠ e)
    (hmesh : p2tr_edge_get_mesh s e = some mid) :
    p2tr_edge_remove s e =
      p2tr_mesh_on_edge_removed
        (p2tr_mesh_on_edge_removed (p2tr_edge_remove_body s e r a b) mid e)
        mid r.mirror ∧
    (p2tr_edge_remove s e).log = s.log ++ [(mid, e), (mid, r.mirror)] ∧
    (p2tr_edge_remove_body s e r a b).log = s.log ∧
    p2tr_edge_is_removed (p2tr_edge_remove_body s e r a b) e = true ∧
    p2tr_edge_is_removed (p2tr_edge_remove_body s e r a b) r.mirror = true := by
  have hep : (s.edges e).map (fun x => x.endP) = some (some b) := by
    rw [he, Option.map_some', hend]
  have hmp : (s.edges r.mirror).map (fun x => x.endP) = some (some a) := by
    rw [hm, Option.map_some', hstart]
  obtain ⟨⟨x, hx, hxe⟩, ⟨y, hy, hye⟩, hlog⟩ := remove_body_spec s e r a b hne hep hmp
  have hre := remove_eq s e r mr a b he hend hm hstart
  rw [hmesh] at hre
  refine ⟨hre, ?_, hlog, by simp [p2tr_edge_is_removed, hx, hxe],
    by simp [p2tr_edge_is_removed, hy, hye]⟩
  rw [hre]
  show ((p2tr_edge_remove_body s e r a b).log ++ [(mid, e)]) ++ [(mid, r.mirror)] = _
  rw [hlog, List.append_assoc]
  rfl

theorem edge_remove_notifies_once_per_direction_after_transition_witness :
    p2tr_edge_get_mesh W 0 = some 0 ∧
      ((p2tr_edge_remove W 0).log = W.log ++ [(0, 0), (0, 1)] ∧
        p2tr_edge_is_removed (p2tr_edge_remove_body W 0
          ⟨0, false, false, some 1, 1, 1, none⟩ 0 1) 0 = true) := by
  have h := edge_remove_notifies_once_per_direction_after_transition W 0
    ⟨0, false, false, some 1, 1, 1, none⟩ ⟨0, false, false, some 0, 0, 0, none⟩
    0 1 0 rfl rfl rfl rfl (by decide) rfl
  exact ⟨rfl, h.2.1, h.2.2.2.1⟩

/-- The triangle cascade, for every binding configuration: whenever the
mirror is bound to a triangle, that triangle is reclaimed and the mirror's
bound-triangle reference cleared, and likewise for a triangle bound to the
edge itself — each independently of whether the other direction is bound.
The bundled hypotheses are data-model invariants: a bound direction is
among its triangle's three bounding half-edges, the mirror does not bound
the edge's own triangle, and when both directions are bound the two
triangles are distinct records. -/
theorem cascade_spec (s : MeshState) (e : EdgeId) (r mr : P2trEdge)
    (he : s.edges e = some r) (hm : s.edges r.mirror = some mr)
    (hb1 : ∀ t1, r.tri = some t1 → ∃ tr1, s.tris t1 = some tr1 ∧
      (e = tr1.e1 ∨ e = tr1.e2 ∨ e = tr1.e3) ∧
      (r.mirror ≠ tr1.e1 ∧ r.mirror ≠ tr1.e2 ∧ r.mirror ≠ tr1.e3) ∧
      ∀ t2, mr.tri = some t2 → t2 ≠ t1)
    (hb2 : ∀ t2, mr.tri = some t2 → ∃ tr2, s.tris t2 = some tr2 ∧
      (r.mirror = tr2.e1 ∨ r.mirror = tr2.e2 ∨ r.mirror = tr2.e3)) :
    (∀ t2, mr.tri = some t2 →
      (p2tr_edge_remove_cascade s r).tris t2 = none ∧
      ∃ y, (p2tr_edge_remove_cascade s r).edges r.mirror = some y ∧
        y.tri = none) ∧
    (∀ t1, r.tri = some t1 →
      (p2tr_edge_remove_cascade s r).tris t1 = none ∧
      ∃ x, (p2tr_edge_remove_cascade s r).edges e = some x ∧ x.tri = none) := by
  unfold p2tr_edge_remove_cascade
  cases hrt : r.tri with
  | none =>
    simp only
    cases hmt : (s.edges r.mirror).bind (fun x => x.tri) with
    | none =>
      simp only [hmt]
      have hmt2 : mr.tri = none := by
        rw [hm] at hmt
        simpa using hmt
      constructor
      · intro t2 h
        rw [hmt2] at h
        exact Option.noConfusion h
      · intro t1 h
        exact Option.noConfusion h
    | some t2 =>
      simp only [hmt]
      have hmt2 : mr.tri = some t2 := by
        rw [hm] at hmt
        simpa using hmt
      obtain ⟨tr2, htr2, hin2⟩ := hb2 t2 hmt2
      constructor
      · intro t2x h
        rw [hmt2] at h
        injection h with h2
        subst h2
        refine ⟨triangle_remove_tris_self s t2 tr2 htr2, ?_⟩
        rw [triangle_remove_clears s t2 tr2 r.mirror htr2 hin2, hm]
        exact ⟨clearTri mr, rfl, rfl⟩
      · intro t1 h
        exact Option.noConfusion h
  | some t1 =>
    simp only
    obtain ⟨tr1, htr1, hin1, hout1, hdis⟩ := hb1 t1 hrt
    have hs1m : (p2tr_triangle_remove s t1).edges r.mirror = some mr :=
      (triangle_remove_edges_skip s t1 tr1 r.mirror htr1 hout1.1 hout1.2.1
        hout1.2.2).trans hm
    have he1 : (p2tr_triangle_remove s t1).edges e = some (clearTri r) := by
      rw [triangle_remove_clears s t1 tr1 e htr1 hin1, he]
      rfl
    cases hmt : ((p2tr_triangle_remove s t1).edges r.mirror).bind
        (fun x => x.tri) with
    | none =>
      simp only [hmt]
      have hmt2 : mr.tri = none := by
        rw [hs1m] at hmt
        simpa using hmt
      constructor
      · intro t2 h
        rw [hmt2] at h
        exact Option.noConfusion h
      · intro t1x h
        injection h with h1
        subst h1
        exact ⟨triangle_remove_tris_self s t1 tr1 htr1, clearTri r, he1, rfl⟩
    | some t2 =>
      simp only [hmt]
      have hmt2 : mr.tri = some t2 := by
        rw [hs1m] at hmt
        simpa using hmt
      obtain ⟨tr2, htr2, hin2⟩ := hb2 t2 hmt2
      have h12 : t2 ≠ t1 := hdis t2 hmt2
      have htr2x : (p2tr_triangle_remove s t1).tris t2 = some tr2 :=
        (triangle_remove_tris_ne s t1 t2 h12).trans htr2
      constructor
      · intro t2x h
        rw [hmt2] at h
        injection h with h2
        subst h2
        refine ⟨triangle_remove_tris_self _ t2 tr2 htr2x, ?_⟩
        rw [triangle_remove_clears _ t2 tr2 r.mirror htr2x hin2, hs1m]
        exact ⟨clearTri mr, rfl, rfl⟩
      · intro t1x h
        injection h with h1
        subst h1
        refine ⟨?_, ?_⟩
        · rw [triangle_remove_tris_ne _ t2 t1 (Ne.symm h12)]
          exact triangle_remove_tris_self s t1 tr1 htr1
        · rcases triangle_remove_edges_cases (p2tr_triangle_remove s t1) t2 e
            with hc | hc
          · exact ⟨clearTri r, hc.trans he1, rfl⟩
          · rw [hc, he1]
            exact ⟨clearTri (clearTri r), rfl, rfl⟩

/-- C4: removing a live edge cascades to every triangle bound to either
direction — whenever the mirror is bound to a triangle, `p2tr_edge_remove`
removes that triangle (the cascade runs before tombstoning, as the first
step of the removal body), so that afterwards the triangle record no
longer exists and the mirror's bound-triangle reference is cleared; the
same holds for a triangle bound to the edge itself.  Either direction may
also be unbound: the corresponding conclusion is then vacuous and the
other direction's cascade still runs. -/
theorem edge_remove_cascades_triangles (s : MeshState) (e : EdgeId)
    (r mr : P2trEdge) (a b : PointId)
    (he : s.edges e = some r) (hend : r.endP = some b)
    (hm : s.edges r.mirror = some mr) (hstart : mr.endP = some a)
    (hne : r.mirror ≠ e)
    (hb1 : ∀ t1, r.tri = some t1 → ∃ tr1, s.tris t1 = some tr1 ∧
      (e = tr1.e1 ∨ e = tr1.e2 ∨ e = tr1.e3) ∧
      (r.mirror ≠ tr1.e1 ∧ r.mirror ≠ tr1.e2 ∧ r.mirror ≠ tr1.e3) ∧
      ∀ t2, mr.tri = some t2 → t2 ≠ t1)
    (hb2 : ∀ t2, mr.tri = some t2 → ∃ tr2, s.tris t2 = some tr2 ∧
      (r.mirror = tr2.e1 ∨ r.mirror = tr2.e2 ∨ r.mirror = tr2.e3)) :
    (∀ t2, mr.tri = some t2 →
      (p2tr_edge_remove s e).tris t2 = none ∧
      ((p2tr_edge_remove s e).edges r.mirror).map (fun x => x.tri) = some none) ∧
    (∀ t1, r.tri = some t1 →
      (p2tr_edge_remove s e).tris t1 = none ∧
      ((p2tr_edge_remove s e).edges e).map (fun x => x.tri) = some none) := by
  obtain ⟨c1, c2⟩ := cascade_spec s e r mr he hm hb1 hb2
  have hbody_m : ∀ y, (p2tr_edge_remove_cascade s r).edges r.mirror = some y →
      (p2tr_edge_remove_body s e r a b).edges r.mirror =
        some { y with endP := none } := by
    intro y hy
    show (updEdge (updEdge _ e _) r.mirror _).edges r.mirror = _
    rw [updEdge_edges_self, updEdge_edges_ne _ _ _ _ hne]
    show ((p2tr_edge_remove_cascade s r).edges r.mirror).map _ = _
    rw [hy]
    rfl
  have hbody_e : ∀ x, (p2tr_edge_remove_cascade s r).edges e = some x →
      (p2tr_edge_remove_body s e r a b).edges e = some { x with endP := none } := by
    intro x hx
    show (updEdge (updEdge _ e _) r.mirror _).edges e = _
    rw [updEdge_edges_ne _ _ _ _ (Ne.symm hne), updEdge_edges_self]
    show ((p2tr_edge_remove_cascade s r).edges e).map _ = _
    rw [hx]
    rfl
  rw [remove_eq s e r mr a b he hend hm hstart]
  cases hmesh : p2tr_edge_get_mesh s e with
  | none =>
    simp only
    constructor
    · intro t2 ht2
      obtain ⟨hct, y, hy, hyt⟩ := c1 t2 ht2
      refine ⟨hct, ?_⟩
      rw [hbody_m y hy]
      simpa using hyt
    · intro t1 ht1
      obtain ⟨hct, x, hx, hxt⟩ := c2 t1 ht1
      refine ⟨hct, ?_⟩
      rw [hbody_e x hx]
      simpa using hxt
  | some mid =>
    simp only
    constructor
    · intro t2 ht2
      obtain ⟨hct, y, hy, hyt⟩ := c1 t2 ht2
      refine ⟨hct, ?_⟩
      show ((p2tr_edge_remove_body s e r a b).edges r.mirror).map _ = _
      rw [hbody_m y hy]
      simpa using hyt
    · intro t1 ht1
      obtain ⟨hct, x, hx, hxt⟩ := c2 t1 ht1
      refine ⟨hct, ?_⟩
      show ((p2tr_edge_remove_body s e r a b).edges e).map _ = _
      rw [hbody_e x hx]
      simpa using hxt

theorem edge_remove_cascades_triangles_witness :
    WT.edges 0 = some ⟨0, false, false, some 1, 1, 1, none⟩ ∧
    WT.edges 1 = some ⟨0, false, false, some 0, 0, 0, some 1⟩ ∧
    (p2tr_edge_remove WT 0).tris 1 = none ∧
    ((p2tr_edge_remove WT 0).edges 1).map (fun x => x.tri) = some none := by
  have h := edge_remove_cascades_triangles WT 0
    ⟨0, false, false, some 1, 1, 1, none⟩ ⟨0, false, false, some 0, 0, 0, some 1⟩
    0 1 rfl rfl rfl rfl (by decide)
    (fun t1 h => Option.noConfusion h)
    (fun t2 h => by
      have h2 : (some 1 : Option TriId) = some t2 := h
      cases h2
      exact ⟨⟨1, 1, 1⟩, rfl, Or.inl rfl⟩)
  obtain ⟨hgone, hclear⟩ := h.1 1 rfl
  exact ⟨rfl, rfl, hgone, hclear⟩

/-- C8: for a live edge, `p2tr_edge_get_diametral_circle` returns the
circle whose center is the midpoint of the edge's two endpoints and whose
radius is half of the edge's length. -/
theorem diametral_circle_midpoint_half_length (s : MeshState) (e : EdgeId)
    (ec sc : P2trVector2) (hE : edgeEndpoints s e = some (ec, sc)) :
    p2tr_edge_get_diametral_circle s e =
      some ⟨⟨(ec.x + sc.x) / 2, (ec.y + sc.y) / 2⟩,
        Real.sqrt ((ec.x - sc.x) ^ 2 + (ec.y - sc.y) ^ 2) / 2⟩ ∧
    p2tr_edge_get_length s e =
      some (Real.sqrt ((ec.x - sc.x) ^ 2 + (ec.y - sc.y) ^ 2)) := by
  have hrad : p2tr_vector2_norm (p2tr_vector2_sub ec (p2tr_vector2_center ec sc)) =
      Real.sqrt ((ec.x - sc.x) ^ 2 + (ec.y - sc.y) ^ 2) / 2 := by
    unfold p2tr_vector2_norm p2tr_vector2_sub p2tr_vector2_center
    have h1 : (ec.x - (ec.x + sc.x) / 2) ^ 2 + (ec.y - (ec.y + sc.y) / 2) ^ 2 =
        ((ec.x - sc.x) ^ 2 + (ec.y - sc.y) ^ 2) / 4 := by ring
    have hT : (0 : ℝ) ≤ (ec.x - sc.x) ^ 2 + (ec.y - sc.y) ^ 2 := by positivity
    have h2 : ((ec.x - sc.x) ^ 2 + (ec.y - sc.y) ^ 2) / 4 =
        (Real.sqrt ((ec.x - sc.x) ^ 2 + (ec.y - sc.y) ^ 2) / 2) ^ 2 := by
      rw [div_pow, Real.sq_sqrt hT]
      norm_num
    show Real.sqrt ((ec.x - (ec.x + sc.x) / 2) ^ 2 + (ec.y - (ec.y + sc.y) / 2) ^ 2) = _
    rw [h1, h2, Real.sqrt_sq (by positivity)]
  constructor
  · unfold p2tr_edge_get_diametral_circle
    rw [hE]
    simp only [Option.map_some']
    rw [show (p2tr_vector2_center ec sc : P2trVector2) =
      ⟨(ec.x + sc.x) / 2, (ec.y + sc.y) / 2⟩ from rfl] at hrad ⊢
    rw [hrad]
  · unfold p2tr_edge_get_length
    rw [hE]
    rfl

theorem diametral_circle_midpoint_half_length_witness :
    edgeEndpoints W8 0 = some (⟨2, 0⟩, ⟨0, 0⟩) ∧
      p2tr_edge_get_diametral_circle W8 0 = some ⟨⟨1, 0⟩, 1⟩ := by
  have h := (diametral_circle_midpoint_half_length W8 0 ⟨2, 0⟩ ⟨0, 0⟩ rfl).1
  have hs : Real.sqrt (4 : ℝ) = 2 := by
    rw [show (4 : ℝ) = 2 ^ 2 by norm_num]
    exact Real.sqrt_sq (by norm_num)
  refine ⟨rfl, ?_⟩
  rw [h]
  norm_num [hs]

/-- C2 (amended): for every pair of points with distinct coordinates, the
edge pair returned by `p2tr_edge_new` satisfies mirror-of-mirror identity,
`e.end = b`, `e.mirror.end = a`, forward reference count 1, mirror
reference count 0, and the two directions' stored angles differ by exactly
π modulo 2π. -/
theorem edge_new_pair_structure_and_angles (s : MeshState) (a b : PointId)
    (k : Bool) (pa pb : P2trPoint)
    (ha : s.points a = some pa) (hb : s.points b = some pb)
    (hab : pa.c.x ≠ pb.c.x ∨ pa.c.y ≠ pb.c.y) :
    ∃ re rm,
      (p2tr_edge_new s a b k).1.edges (p2tr_edge_new s a b k).2 = some re ∧
      (p2tr_edge_new s a b k).1.edges re.mirror = some rm ∧
      rm.mirror = (p2tr_edge_new s a b k).2 ∧
      re.endP = some b ∧ rm.endP = some a ∧
      re.refcount = 1 ∧ rm.refcount = 0 ∧
      (rm.angle : Real.Angle) = (re.angle : Real.Angle) + Real.pi := by
  refine ⟨{ p2tr_edge_init pa.c pb.c b k (s.nextEdge + 1) with refcount := 1 },
    p2tr_edge_init pb.c pa.c a k s.nextEdge, ?_, ?_, rfl, rfl, rfl, rfl, rfl, ?_⟩
  · exact edge_new_edges_fwd s a b k pa pb _ _ ha hb rfl rfl
  · show (p2tr_edge_new s a b k).1.edges (s.nextEdge + 1) = _
    exact edge_new_edges_mir s a b k pa pb _ _ ha hb rfl rfl
  · show (Complex.arg ⟨pa.c.x - pb.c.x, pa.c.y - pb.c.y⟩ : Real.Angle) =
      (Complex.arg ⟨pb.c.x - pa.c.x, pb.c.y - pa.c.y⟩ : Real.Angle) + Real.pi
    have hz : (⟨pb.c.x - pa.c.x, pb.c.y - pa.c.y⟩ : ℂ) ≠ 0 := by
      simp only [ne_eq, Complex.ext_iff, Complex.zero_re, Complex.zero_im, not_and,
        sub_eq_zero]
      intro h1
      rcases hab with h | h
      · exact absurd h1.symm h
      · intro h2
        exact h h2.symm
    have hneg : (⟨pa.c.x - pb.c.x, pa.c.y - pb.c.y⟩ : ℂ) =
        -(⟨pb.c.x - pa.c.x, pb.c.y - pa.c.y⟩ : ℂ) := by
      apply Complex.ext <;> simp
    rw [hneg, Complex.arg_neg_coe_angle hz]

theorem edge_new_pair_structure_and_angles_witness :
    W.points 0 = some ⟨⟨0, 0⟩, [0], 2, some 0⟩ ∧
      (∃ re rm,
        (p2tr_edge_new W 0 1 false).1.edges (p2tr_edge_new W 0 1 false).2 = some re ∧
        (p2tr_edge_new W 0 1 false).1.edges re.mirror = some rm ∧
        rm.mirror = (p2tr_edge_new W 0 1 false).2 ∧
        re.endP = some 1 ∧ rm.endP = some 0 ∧
        re.refcount = 1 ∧ rm.refcount = 0 ∧
        (rm.angle : Real.Angle) = (re.angle : Real.Angle) + Real.pi) :=
  ⟨rfl,
    edge_new_pair_structure_and_angles W 0 1 false
      ⟨⟨0, 0⟩, [0], 2, some 0⟩ ⟨⟨1, 0⟩, [1], 2, some 0⟩ rfl rfl
      (Or.inl (by norm_num))⟩

/-- C2 counterexample: the claim quantifies over every pair of points; for
an edge pair created from a point to itself (coincident coordinates) both
stored angles are `atan2 0 0 = 0`, so the mirror's stored angle does not
equal the forward angle plus π modulo 2π, and the claim as stated fails at
this concrete input. -/
theorem edge_new_degenerate_angles_not_opposite :
    ¬ (((p2tr_edge_new WD 0 0 false).1.edges 1).map
        (fun x => (x.angle : Real.Angle)) =
      ((p2tr_edge_new WD 0 0 false).1.edges 0).map
        (fun x => ((x.angle : Real.Angle) + Real.pi))) := by
  have h0 := edge_new_edges_fwd WD 0 0 false ⟨⟨0, 0⟩, [], 1, none⟩
    ⟨⟨0, 0⟩, [], 1, none⟩ 0 1 rfl rfl rfl rfl
  have h1 := edge_new_edges_mir WD 0 0 false ⟨⟨0, 0⟩, [], 1, none⟩
    ⟨⟨0, 0⟩, [], 1, none⟩ 0 1 rfl rfl rfl rfl
  rw [h0, h1]
  simp only [Option.map_some', Option.some.injEq]
  show ¬ ((atan2 ((0 : ℝ) - 0) ((0 : ℝ) - 0) : Real.Angle) =
    (atan2 ((0 : ℝ) - 0) ((0 : ℝ) - 0) : Real.Angle) + Real.pi)
  have hzero : atan2 ((0 : ℝ) - 0) ((0 : ℝ) - 0) = 0 := by
    unfold atan2
    rw [show (⟨(0 : ℝ) - 0, (0 : ℝ) - 0⟩ : ℂ) = 0 from by apply Complex.ext <;> simp]
    exact Complex.arg_zero
  rw [hzero]
  intro hEq
  rw [Real.Angle.coe_zero, zero_add] at hEq
  exact Real.Angle.pi_ne_zero hEq.symm

/-- C1: evaluating `p2tr_edge_angle_between` on the specification's test
vector — e1 built by `p2tr_edge_new` from (0,0) to (1,0) (angle 0) and e2
from (1,0) to (1,1) (angle π/2), sharing point (1,0) — returns the raw
value 3π/2: the raw value does not exceed 2π, so no reduction happens, the
result lies outside the documented range (−π, π], and it differs from the
−π/2 the specification's test expects. -/
theorem angle_between_test_vector_returns_reflex :
    p2tr_edge_angle_between
        (p2tr_edge_new (p2tr_edge_new W3 0 1 false).1 1 2 false).1 0 2 =
      some (3 * Real.pi / 2) ∧
    ¬ (3 * Real.pi / 2 ≤ Real.pi) ∧
    (3 * Real.pi / 2 : ℝ) ≠ -(Real.pi / 2) := by
  have h0 : (p2tr_edge_new (p2tr_edge_new W3 0 1 false).1 1 2 false).1.edges 0 =
      some { p2tr_edge_init ⟨0, 0⟩ ⟨1, 0⟩ 1 false 1 with refcount := 1 } := by
    rw [edge_new_edges_other (p2tr_edge_new W3 0 1 false).1 1 2 false 0
      (by decide) (by decide)]
    exact edge_new_edges_fwd W3 0 1 false ⟨⟨0, 0⟩, [], 1, none⟩
      ⟨⟨1, 0⟩, [], 1, none⟩ 0 1 rfl rfl rfl rfl
  have h2 : (p2tr_edge_new (p2tr_edge_new W3 0 1 false).1 1 2 false).1.edges 2 =
      some { p2tr_edge_init ⟨1, 0⟩ ⟨1, 1⟩ 2 false 3 with refcount := 1 } :=
    edge_new_edges_fwd (p2tr_edge_new W3 0 1 false).1 1 2 false
      ⟨⟨1, 0⟩, [1], 2, none⟩ ⟨⟨1, 1⟩, [], 1, none⟩ 2 3 rfl rfl rfl rfl
  have h3 : (p2tr_edge_new (p2tr_edge_new W3 0 1 false).1 1 2 false).1.edges 3 =
      some (p2tr_edge_init ⟨1, 1⟩ ⟨1, 0⟩ 1 false 2) :=
    edge_new_edges_mir (p2tr_edge_new W3 0 1 false).1 1 2 false
      ⟨⟨1, 0⟩, [1], 2, none⟩ ⟨⟨1, 1⟩, [], 1, none⟩ 2 3 rfl rfl rfl rfl
  have hstart : P2TR_EDGE_START
      (p2tr_edge_new (p2tr_edge_new W3 0 1 false).1 1 2 false).1 2 = some 1 := by
    unfold P2TR_EDGE_START
    rw [h2, Option.some_bind]
    show ((p2tr_edge_new (p2tr_edge_new W3 0 1 false).1 1 2 false).1.edges 3).bind
      _ = some 1
    rw [h3, Option.some_bind]
    rfl
  have hang1 : ({ p2tr_edge_init ⟨0, 0⟩ ⟨1, 0⟩ 1 false 1 with
      refcount := 1 } : P2trEdge).angle = 0 := by
    show atan2 ((0 : ℝ) - 0) ((1 : ℝ) - 0) = 0
    unfold atan2
    rw [show (⟨(1 : ℝ) - 0, (0 : ℝ) - 0⟩ : ℂ) = 1 from by apply Complex.ext <;> simp]
    exact Complex.arg_one
  have hang2 : ({ p2tr_edge_init ⟨1, 0⟩ ⟨1, 1⟩ 2 false 3 with
      refcount := 1 } : P2trEdge).angle = Real.pi / 2 := by
    show atan2 ((1 : ℝ) - 0) ((1 : ℝ) - 1) = Real.pi / 2
    unfold atan2
    rw [show (⟨(1 : ℝ) - 1, (1 : ℝ) - 0⟩ : ℂ) = Complex.I from by
      apply Complex.ext <;> simp]
    exact Complex.arg_I
  refine ⟨?_, fun hle => by nlinarith [Real.pi_pos],
    fun heq => by nlinarith [Real.pi_pos]⟩
  unfold p2tr_edge_angle_between
  rw [h0, h2]
  have hcond : ¬ (({ p2tr_edge_init ⟨0, 0⟩ ⟨1, 0⟩ 1 false 1 with
      refcount := 1 } : P2trEdge).endP ≠ P2TR_EDGE_START
        (p2tr_edge_new (p2tr_edge_new W3 0 1 false).1 1 2 false).1 2) := by
    rw [hstart]
    simp [p2tr_edge_init]
  dsimp only
  rw [if_neg hcond, hang1, hang2]
  rw [if_neg (by nlinarith [Real.pi_pos])]
  rw [show Real.pi - 0 + Real.pi / 2 = 3 * Real.pi / 2 from by ring]

end Poly2triC
